import Mathlib

/-
Verification of the whispo context-protocol layer and its Tauri IPC client.

The repository ships the renderer-side IPC client (tauri-client.ts) as
TypeScript source; the protocol layer itself (message codec, provider
connection manager, client invoker, tool registry/dispatcher, context
aggregator, implemented in the Rust backend under src-tauri/src/mcp/) is
described by the specification but its source is not part of this tree, so
those components are modelled here from the specification's words.
-/

namespace Whispo

/-! ## JSON values

Modelled from the spec: wire messages are structured JSON-RPC 2.0 message
objects; a byte sequence that parses as JSON is represented here directly by
its JSON value, with objects as ordered key/value lists. -/

/-- Modelled from the spec: a semi-structured JSON value as carried on the
wire by the protocol (the backend codec in src-tauri/src/mcp/types.rs is not
under src/). Objects are ordered lists of key/value pairs so that unknown
fields can be represented. -/
inductive Json where
  | null
  | bool (b : Bool)
  | num (n : Int)
  | str (s : String)
  | arr (xs : List Json)
  | obj (kvs : List (String × Json))

/-- First value bound to key `k` in an object's field list, as a JSON-object
field lookup. -/
def lookupField : List (String × Json) → String → Option Json
  | [], _ => none
  | kv :: rest, k => if kv.1 = k then some kv.2 else lookupField rest k

/-- Fuel-bounded rendering of a JSON value, used to produce the offending
fragment carried by a malformed-message error. -/
def renderJson : Nat → Json → String
  | 0, _ => "..."
  | Nat.succ fuel, j =>
    match j with
    | .null => "null"
    | .bool true => "true"
    | .bool false => "false"
    | .num n => toString n
    | .str s => "\"" ++ s ++ "\""
    | .arr xs =>
      "[" ++ String.intercalate "," (xs.map (fun x => renderJson fuel x)) ++ "]"
    | .obj kvs =>
      "\x7b" ++
        String.intercalate ","
          (kvs.map (fun kv => "\"" ++ kv.1 ++ "\":" ++ renderJson fuel kv.2)) ++
      "\x7d"

/-! ## Message codec

Modelled from the spec (section 4.1 and the data model in section 3): a
message is a correlated unit of exchange with a protocol version tag, an
identifier (present on requests, echoed on responses, absent on
notifications), a method name with parameters for requests, and for
responses exactly one of a result payload or a structured error. -/

/-- Modelled from the spec: a request/response correlation identifier, a
JSON-RPC 2.0 id (number or string). -/
inductive MsgId where
  | num (n : Int)
  | str (s : String)

/-- Modelled from the spec: the structured error object of a response
(code, message, optional data). -/
structure ErrorObj where
  code : Int
  message : String
  data : Option Json

/-- Modelled from the spec: a typed protocol message — request (id, method,
params), one-way notification (method, params, no id), or response carrying
exactly one of a result payload or a structured error. -/
inductive Message where
  | request (id : MsgId) (method : String) (params : Option Json)
  | notification (method : String) (params : Option Json)
  | response (id : MsgId) (outcome : Json ⊕ ErrorObj)

/-- Modelled from the spec: decoding failure for unparseable wire data,
carrying the offending fragment, truncated. -/
inductive DecodeError where
  | malformedMessage (fragment : List Char)

/-- Length bound for the truncated offending fragment of a malformed-message
error. -/
def fragLimit : Nat := 100

/-- The offending fragment recorded on a malformed message: its rendering,
truncated to the fragment limit. -/
def fragmentOf (j : Json) : List Char :=
  ((renderJson 32 j).data).take fragLimit

/-- JSON-object field encoding of a message identifier. -/
def encodeId : MsgId → Json
  | .num n => .num n
  | .str s => .str s

/-- Field list for an optional parameter payload: the field is absent when
there are no parameters. -/
def paramsFields : Option Json → List (String × Json)
  | none => []
  | some p => [("params", p)]

/-- Field list for the structured error object of an error response. -/
def errorObjFields (e : ErrorObj) : List (String × Json) :=
  [("code", .num e.code), ("message", .str e.message)] ++
    (match e.data with
     | none => []
     | some d => [("data", d)])

/-- Modelled from the spec: the field list of the wire object for a typed
message (the version tag, the identifier when present, method and params for
requests and notifications, and exactly one of result or error for
responses). -/
def encodeFields : Message → List (String × Json)
  | .request id method params =>
    [("jsonrpc", .str "2.0"), ("id", encodeId id), ("method", .str method)] ++
      paramsFields params
  | .notification method params =>
    [("jsonrpc", .str "2.0"), ("method", .str method)] ++ paramsFields params
  | .response id (.inl result) =>
    [("jsonrpc", .str "2.0"), ("id", encodeId id), ("result", result)]
  | .response id (.inr e) =>
    [("jsonrpc", .str "2.0"), ("id", encodeId id), ("error", .obj (errorObjFields e))]

/-- Modelled from the spec: encode a typed message into the wire message
shape; encoding is a total function of the typed message. -/
def encode (m : Message) : Json :=
  .obj (encodeFields m)

/-- Decoding of an identifier field value. -/
def decodeId : Json → Option MsgId
  | .num n => some (.num n)
  | .str s => some (.str s)
  | _ => none

/-- Decoding of a structured error object from its field list; unknown
fields inside the error object are ignored. -/
def decodeErrorObj : Json → Option ErrorObj
  | .obj kvs =>
    match lookupField kvs "code", lookupField kvs "message" with
    | some (.num c), some (.str m) => some ⟨c, m, lookupField kvs "data"⟩
    | _, _ => none
  | _ => none

/-- Core decoding decision, as a function of the six recognised top-level
fields only; every other field of the wire object is ignored. -/
def decodeFrom (vj vm vid vp vr ve : Option Json) : Option Message :=
  match vj with
  | some (.str v) =>
    if v = "2.0" then
      match vm with
      | some (.str method) =>
        match vid with
        | some idj => (decodeId idj).map (fun id => .request id method vp)
        | none => some (.notification method vp)
      | some _ => none
      | none =>
        match vid with
        | some idj =>
          match decodeId idj with
          | some id =>
            match vr, ve with
            | some r, none => some (.response id (.inl r))
            | none, some e => (decodeErrorObj e).map (fun eo => .response id (.inr eo))
            | some _, some _ => none
            | none, none => none
          | none => none
        | none => none
    else none
  | _ => none

/-- Decoding of a wire object's field list: look up the six recognised
fields and decide from those alone, so unknown fields are ignored. -/
def decodeFields (kvs : List (String × Json)) : Option Message :=
  decodeFrom (lookupField kvs "jsonrpc") (lookupField kvs "method")
    (lookupField kvs "id") (lookupField kvs "params")
    (lookupField kvs "result") (lookupField kvs "error")

/-- Core decoder: succeeds exactly on well-formed wire messages. -/
def decodeCore : Json → Option Message
  | .obj kvs => decodeFields kvs
  | _ => none

/-- Modelled from the spec: decode wire data into a typed message; total,
and failing with a malformed-message error (carrying the offending
fragment, truncated) for anything that is not a well-formed message. -/
def decode (j : Json) : Except DecodeError Message :=
  match decodeCore j with
  | some m => .ok m
  | none => .error (.malformedMessage (fragmentOf j))

/-- The six top-level field names the decoder recognises; any other field
of a wire object is an unknown field. -/
def knownTopLevelFields : List String :=
  ["jsonrpc", "id", "method", "params", "result", "error"]

/-- Adjoin one extra field at the end of a wire object's field list. -/
def addExtraField : Json → String → Json → Json
  | .obj kvs, k, v => .obj (kvs ++ [(k, v)])
  | j, _, _ => j

/-! ## Input-shape schemas

Modelled from the spec: every tool descriptor carries an input-shape schema
used for validation before dispatch. The seven locally exposed tools all
take a flat object of required primitive-typed fields, which this schema
language captures. -/

/-- Modelled from the spec: the primitive shape of one required field of a
tool's input object. -/
inductive FieldType where
  | fAny
  | fNum
  | fStr
  | fBool
  | fArr
deriving DecidableEq

/-- Modelled from the spec: a tool input-shape schema — either
unconstrained, or an object with required fields of primitive shapes
(extra fields are allowed). -/
inductive Schema where
  | sAny
  | sObj (required : List (String × FieldType))
deriving DecidableEq

/-- Check of one field value against its declared primitive shape. -/
def checkField : FieldType → Json → Bool
  | .fAny, _ => true
  | .fNum, .num _ => true
  | .fNum, _ => false
  | .fStr, .str _ => true
  | .fStr, _ => false
  | .fBool, .bool _ => true
  | .fBool, _ => false
  | .fArr, .arr _ => true
  | .fArr, _ => false

/-- Modelled from the spec: validation of arguments against a tool's
input-shape schema. -/
def validate : Schema → Json → Bool
  | .sAny, _ => true
  | .sObj reqs, .obj kvs =>
    reqs.all (fun r =>
      match lookupField kvs r.1 with
      | some v => checkField r.2 v
      | none => false)
  | .sObj _, _ => false

/-- Description of the first requirement violated by an argument object. -/
def firstViolation : List (String × FieldType) → List (String × Json) → String
  | [], _ => ""
  | r :: rest, kvs =>
    match lookupField kvs r.1 with
    | some v =>
      if checkField r.2 v then firstViolation rest kvs
      else "field " ++ r.1 ++ " has the wrong type"
    | none => "missing required field " ++ r.1

/-- Modelled from the spec: the specific violated constraint reported with
an invalid-arguments error. -/
def violationOf : Schema → Json → String
  | .sAny, _ => ""
  | .sObj reqs, .obj kvs => firstViolation reqs kvs
  | .sObj _, _ => "arguments are not an object"

/-! ## Error taxonomy

Modelled from the spec (section 7). -/

/-- Modelled from the spec: the typed errors surfaced by the connection
manager, client invoker and dispatcher. -/
inductive McpError where
  | providerUnavailable
  | handshakeFailed
  | callTimeout
  | toolNotFound
  | invalidArguments (violation : String)
  | toolExecutionFailed (cause : String)
deriving DecidableEq

/-! ## Provider connection manager

Modelled from the spec (sections 3 and 4.2): provider configurations keyed
by unique name, connection states, and the connect/disconnect lifecycle
(the backend implementation in src-tauri/src/mcp/client.rs is not under
src/). -/

/-- Modelled from the spec: a provider configuration — name (unique key),
launch command and arguments, environment overrides, enabled flag. -/
structure ProviderConfig where
  name : String
  command : String
  args : List String
  env : List (String × String)
  enabled : Bool
deriving DecidableEq

/-- Modelled from the spec: the state of a provider connection. -/
inductive ConnState where
  | connecting
  | ready
  | degraded
  | closed
deriving DecidableEq

/-- Modelled from the spec: a tool descriptor — name, description, and the
input-shape schema used for validation before dispatch. -/
structure ToolDescriptor where
  name : String
  description : String
  inputSchema : Schema
deriving DecidableEq

/-- Modelled from the spec: one registry entry — the namespace (source
provider's name, or the local namespace), the descriptor, and a staleness
tag set when the owning provider fails to answer a discovery query. -/
structure RegistryEntry where
  namespaceName : String
  tool : ToolDescriptor
  stale : Bool
deriving DecidableEq

/-- Modelled from the spec: the runtime handle the manager owns for one
configured provider — its configuration, connection state, and the recorded
failure reason when the connection was closed by a failure. -/
structure Connection where
  config : ProviderConfig
  state : ConnState
  failureReason : Option McpError
deriving DecidableEq

/-- Modelled from the spec: the shared state the manager owns — the
provider-connection table keyed by provider name and the tool registry. -/
structure ManagerState where
  connections : List (String × Connection)
  registry : List RegistryEntry
deriving DecidableEq

/-- Modelled from the spec: the outcome of spawning a provider process and
performing the initialize handshake. -/
inductive SpawnResult where
  | ok
  | spawnFailed
  | badHandshake
deriving DecidableEq

/-- The connection recorded for a configuration given its spawn/handshake
outcome: ready on acknowledgement, otherwise closed with the failure
reason recorded rather than silently dropped. -/
def mkConnection (cfg : ProviderConfig) : SpawnResult → Connection
  | .ok => ⟨cfg, .ready, none⟩
  | .spawnFailed => ⟨cfg, .closed, some .providerUnavailable⟩
  | .badHandshake => ⟨cfg, .closed, some .handshakeFailed⟩

/-- Modelled from the spec: disconnect a provider by name — terminate its
transport (drop the connection entry) and remove every tool entry sourced
from that provider from the registry. -/
def disconnect (s : ManagerState) (name : String) : ManagerState :=
  { connections := s.connections.filter (fun kc => decide (kc.1 ≠ name)),
    registry := s.registry.filter (fun e => decide (e.namespaceName ≠ name)) }

/-- Modelled from the spec: connect a configured provider — tear down any
existing connection under the same name first (replacement, never
duplication), then record the new connection with the state determined by
the spawn/handshake outcome. -/
def connect (s : ManagerState) (cfg : ProviderConfig) (res : SpawnResult) : ManagerState :=
  let torn := disconnect s cfg.name
  { torn with connections := (cfg.name, mkConnection cfg res) :: torn.connections }

/-- Names of the providers whose connection is currently ready. -/
def readyNames (s : ManagerState) : List String :=
  (s.connections.filter (fun kc => decide (kc.2.state = ConnState.ready))).map (fun kc => kc.1)

/-- The registry entries sourced from one provider's namespace. -/
def registryFor (registry : List RegistryEntry) (p : String) : List RegistryEntry :=
  registry.filter (fun e => decide (e.namespaceName = p))

/-! ## Client invoker: tool discovery -/

/-- Modelled from the spec: the outcome of querying one ready provider for
its tool catalogue — either its list of tools, or a timeout. -/
inductive ProviderResult where
  | tools (ts : List ToolDescriptor)
  | timedOut
deriving DecidableEq

/-- The tools carried by a successful catalogue query. -/
def toolsOf : ProviderResult → List ToolDescriptor
  | .tools ts => ts
  | .timedOut => []

/-- Whether a catalogue query succeeded. -/
def succeededB : ProviderResult → Bool
  | .tools _ => true
  | .timedOut => false

/-- Modelled from the spec: the discovery pass over every ready provider —
fresh catalogues replace that provider's previously discovered entries, a
provider that times out keeps its previous entries tagged stale (omitted
from the fresh merge, never removed), and the names of the timed-out
providers are surfaced as warnings. -/
def listToolsUpdate (s : ManagerState) (results : String → ProviderResult) :
    ManagerState × List String :=
  let ready := readyNames s
  let okProviders := ready.filter (fun p => succeededB (results p))
  let slowProviders := ready.filter (fun p => !succeededB (results p))
  let kept := s.registry.filter (fun e => !okProviders.contains e.namespaceName)
  let marked := kept.map (fun e =>
    if slowProviders.contains e.namespaceName then { e with stale := true } else e)
  let fresh := okProviders.flatMap (fun p =>
    (toolsOf (results p)).map (fun t => RegistryEntry.mk p t false))
  ({ s with registry := marked ++ fresh }, slowProviders)

/-! ## Client invoker: correlated tool calls

Modelled from the spec (section 4.3): a call validates arguments, issues a
correlated request tracked as a pending call with a deadline, and resolves
on response arrival or timeout. Time is a logical clock local to the call
(0 at issue time). -/

/-- Modelled from the spec: an outstanding request identifier correlated
with a deadline. -/
structure PendingCall where
  id : Nat
  deadline : Nat
deriving DecidableEq

/-- Modelled from the spec: how the addressed provider behaves for one
call — it responds at some time with a result or a provider-side error, or
it never responds. -/
inductive ProviderBehavior where
  | respondsAt (t : Nat) (resp : Json ⊕ ErrorObj)
  | neverResponds

/-- Observable outcome of one call: the typed result, the elapsed logical
time consumed by the call, the pending-call table after the call, and the
connection table after the call. -/
structure CallOutcome where
  result : Except McpError Json
  elapsed : Nat
  pendingAfter : List PendingCall
  connectionsAfter : List (String × Connection)

/-- The connection recorded under a provider name, if any. -/
def lookupConn (s : ManagerState) (name : String) : Option Connection :=
  (s.connections.find? (fun kc => decide (kc.1 = name))).map (fun kc => kc.2)

/-- The descriptor registered for a tool under a provider's namespace. -/
def findRemoteTool (s : ManagerState) (providerName toolName : String) : Option ToolDescriptor :=
  (s.registry.find? (fun e =>
    decide (e.namespaceName = providerName) && decide (e.tool.name = toolName))).map
    (fun e => e.tool)

/-- Record the correlation entry for a newly issued request. -/
def addPending (pending : List PendingCall) (id deadline : Nat) : List PendingCall :=
  pending ++ [⟨id, deadline⟩]

/-- Remove the correlation entry of a resolved, timed-out or abandoned
call. -/
def removePending (pending : List PendingCall) (id : Nat) : List PendingCall :=
  pending.filter (fun pc => decide (pc.id ≠ id))

/-- A provider's response mapped to the caller's typed result. -/
def respToResult : Json ⊕ ErrorObj → Except McpError Json
  | .inl j => .ok j
  | .inr e => .error (.toolExecutionFailed e.message)

/-- Modelled from the spec: one tool call. A missing provider or unready
connection fails fast with the provider-unavailable error without consuming
the timeout budget; arguments are validated against the tool's input schema
before sending; the correlated request suspends the caller until the
response arrives or the per-call timeout elapses, in which case the pending
call is removed and a call-timeout error returned, with the connection
table left untouched. -/
def callTool (s : ManagerState) (pending : List PendingCall) (timeout : Nat)
    (reqId : Nat) (providerName toolName : String) (args : Json)
    (behavior : ProviderBehavior) : CallOutcome :=
  match lookupConn s providerName with
  | none => ⟨.error .providerUnavailable, 0, pending, s.connections⟩
  | some conn =>
    if conn.state = ConnState.ready then
      match findRemoteTool s providerName toolName with
      | none => ⟨.error .toolNotFound, 0, pending, s.connections⟩
      | some tool =>
        if validate tool.inputSchema args then
          match behavior with
          | .respondsAt t resp =>
            if t ≤ timeout then
              ⟨respToResult resp, t,
                removePending (addPending pending reqId timeout) reqId, s.connections⟩
            else
              ⟨.error .callTimeout, timeout,
                removePending (addPending pending reqId timeout) reqId, s.connections⟩
          | .neverResponds =>
            ⟨.error .callTimeout, timeout,
              removePending (addPending pending reqId timeout) reqId, s.connections⟩
        else
          ⟨.error (.invalidArguments (violationOf tool.inputSchema args)), 0,
            pending, s.connections⟩
    else ⟨.error .providerUnavailable, 0, pending, s.connections⟩

/-! ## Reachable manager states -/

/-- Modelled from the spec: the manager states reachable from an initial
state with no connections, under the connect, disconnect and tool-discovery
operations. -/
inductive Reachable : ManagerState → Prop where
  | init (registry : List RegistryEntry) : Reachable ⟨[], registry⟩
  | connectStep (s : ManagerState) (cfg : ProviderConfig) (res : SpawnResult) :
      Reachable s → Reachable (connect s cfg res)
  | disconnectStep (s : ManagerState) (name : String) :
      Reachable s → Reachable (disconnect s name)
  | listToolsStep (s : ManagerState) (results : String → ProviderResult) :
      Reachable s → Reachable (listToolsUpdate s results).1

/-! ## Tool registry and dispatcher (server role)

Modelled from the spec (section 4.4): locally exposed tools bound to
handlers over the application state (the backend implementation in
src-tauri/src/mcp/server.rs and tools.rs is not under src/). -/

/-- Modelled from the spec: the local application state the exposed tools
read and mutate through collaborator interfaces — glossary, active profile,
transcription history. -/
structure AppState where
  glossary : List (String × String)
  activeProfileId : String
  history : List String
deriving DecidableEq

/-- Modelled from the spec: one locally exposed tool — its name, its
input-shape schema, and the bound handler, which may fail with a cause. -/
structure LocalTool where
  name : String
  schema : Schema
  handler : Json → AppState → Except String (Json × AppState)

/-- Modelled from the spec: request dispatch — look the tool up by name
(unknown name yields tool-not-found), validate the arguments against its
schema (violations yield invalid-arguments with the specific violated
constraint, without invoking the handler), run the handler, and wrap a
handler failure as tool-execution-failed carrying the original cause. -/
def dispatch (tools : List LocalTool) (st : AppState) (name : String) (args : Json) :
    Except McpError (Json × AppState) :=
  match tools.find? (fun t => decide (t.name = name)) with
  | none => .error .toolNotFound
  | some t =>
    if validate t.schema args then
      match t.handler args st with
      | .ok r => .ok r
      | .error cause => .error (.toolExecutionFailed cause)
    else .error (.invalidArguments (violationOf t.schema args))

/-- The same tool list with every handler replaced; used to state that a
dispatch outcome is independent of the handlers. -/
def withHandlers (g : Json → AppState → Except String (Json × AppState))
    (tools : List LocalTool) : List LocalTool :=
  tools.map (fun t => { t with handler := g })

/-! ## Context aggregator

Modelled from the spec (section 4.5): the snapshot gathers local state and
a bounded-time best-effort context pull from each ready provider in
parallel; a provider that fails or times out contributes nothing. Time is a
logical wall clock for one aggregation. -/

/-- Modelled from the spec: the local state gathered into a snapshot —
active application identity, active file if known, glossary, recent
transcription excerpts. -/
structure LocalState where
  activeApp : String
  activeFile : Option String
  glossary : List (String × String)
  history : List String

/-- Modelled from the spec: an immutable point-in-time context aggregate. -/
structure ContextSnapshot where
  activeApplication : String
  activeFile : Option String
  glossaryTerms : List (String × String)
  recentHistory : List String
  providerContext : List (String × Json)

/-- Modelled from the spec: how one provider behaves for a context pull —
it answers at some time with a context value, or it fails or never
answers. -/
inductive ProviderPull where
  | within (t : Nat) (ctx : Json)
  | failsOrNever

/-- Wall-clock time one provider occupies inside the aggregation window:
its answer time, cut off at the budget. -/
def pullTime (budget : Nat) : ProviderPull → Nat
  | .within t _ => min t budget
  | .failsOrNever => budget

/-- Modelled from the spec: build a snapshot — local-state fields are
copied in, each ready provider contributes its context only if it answers
within the aggregation budget, and the elapsed wall-clock time is the
maximum of the (budget-capped) per-provider times since the pulls run in
parallel. Returns the snapshot and the elapsed time. -/
def buildSnapshot (ls : LocalState) (providers : List String) (budget : Nat)
    (pull : String → ProviderPull) : ContextSnapshot × Nat :=
  (⟨ls.activeApp, ls.activeFile, ls.glossary, ls.history,
    providers.filterMap (fun p =>
      match pull p with
      | .within t ctx => if t ≤ budget then some (p, ctx) else none
      | .failsOrNever => none)⟩,
   (providers.map (fun p => pullTime budget (pull p))).foldr max 0)

/-! ## Serialized dispatch of mutating tool calls

Modelled from the spec (sections 4.4 and 5): dispatch for mutating tools is
serialized per tool. Each call is modelled at the granularity at which
interleaving could corrupt state — acquire the tool's lock, read the
application state, write the mutated state, release — and a schedule is an
arbitrary interleaving of the two calls' steps; a call scheduled while the
other holds the lock does not advance. -/

/-- Modelled from the spec: the phase of one mutating call — idle before
the per-tool lock is acquired, holding the lock before its read, holding
the lock with the read state saved, holding the lock with the write done,
and released. -/
inductive Phase (σ : Type) where
  | idle
  | locked
  | readDone (saved : σ)
  | written
  | done
deriving DecidableEq

/-- Whether a call in this phase holds the per-tool lock. -/
def holdsLock : Phase σ → Bool
  | .locked => true
  | .readDone _ => true
  | .written => true
  | _ => false

/-- Whether a call in this phase has already applied its write. -/
def appliedWrite : Phase σ → Bool
  | .written => true
  | .done => true
  | _ => false

/-- Configuration of two concurrent mutating calls to the same tool: each
call's phase and the shared application state. -/
structure Exec (σ : Type) where
  p0 : Phase σ
  p1 : Phase σ
  app : σ
deriving DecidableEq

/-- One step of one call: acquire blocks while the other call holds the
lock; the read saves the shared state; the write applies the call's
mutation to the state it read. -/
def stepCall (f : σ → σ) (myPhase otherPhase : Phase σ) (app : σ) : Phase σ × σ :=
  match myPhase with
  | .idle => if holdsLock otherPhase then (.idle, app) else (.locked, app)
  | .locked => (.readDone app, app)
  | .readDone saved => (.written, f saved)
  | .written => (.done, app)
  | .done => (.done, app)

/-- One scheduled step: the scheduled call (false for the first call, true
for the second) takes its next step. -/
def step (f0 f1 : σ → σ) (e : Exec σ) (who : Bool) : Exec σ :=
  if who then
    let pa := stepCall f1 e.p1 e.p0 e.app
    ⟨e.p0, pa.1, pa.2⟩
  else
    let pa := stepCall f0 e.p0 e.p1 e.app
    ⟨pa.1, e.p1, pa.2⟩

/-- Run a schedule: an arbitrary interleaving of the two calls' steps. -/
def run (f0 f1 : σ → σ) : List Bool → Exec σ → Exec σ
  | [], e => e
  | w :: rest, e => run f0 f1 rest (step f0 f1 e w)

/-- Both calls idle on the initial application state. -/
def initExec (s0 : σ) : Exec σ :=
  ⟨.idle, .idle, s0⟩

/-- The state is some sequential composition of the two mutations. -/
def SeqResult (f0 f1 : σ → σ) (s0 a : σ) : Prop :=
  a = f1 (f0 s0) ∨ a = f0 (f1 s0)

/-- Inductive invariant of the two-call execution: mutual exclusion on the
lock, the shared state determined by which writes have been applied, and a
saved read equal to the current shared state. -/
def ExecInv (f0 f1 : σ → σ) (s0 : σ) (e : Exec σ) : Prop :=
  (¬(holdsLock e.p0 = true ∧ holdsLock e.p1 = true)) ∧
  (appliedWrite e.p0 = false → appliedWrite e.p1 = false → e.app = s0) ∧
  (appliedWrite e.p0 = true → appliedWrite e.p1 = false → e.app = f0 s0) ∧
  (appliedWrite e.p0 = false → appliedWrite e.p1 = true → e.app = f1 s0) ∧
  (appliedWrite e.p0 = true → appliedWrite e.p1 = true → SeqResult f0 f1 s0 e.app) ∧
  (∀ saved, e.p0 = .readDone saved → saved = e.app) ∧
  (∀ saved, e.p1 = .readDone saved → saved = e.app)

/-- The same configuration with the two calls' roles exchanged. -/
def swapExec (e : Exec σ) : Exec σ :=
  ⟨e.p1, e.p0, e.app⟩

/-- The state effect of one call to a local tool with given arguments: the
handler's updated state on success, the state unchanged on handler
failure. -/
def handlerEffect (t : LocalTool) (args : Json) (st : AppState) : AppState :=
  match t.handler args st with
  | .ok r => r.2
  | .error _ => st

/-! ## Tauri IPC client (src/renderer/src/lib/tauri-client.ts)

These definitions embed the renderer-side client. JavaScript strings are
modelled as lists of UTF-16 code units. -/

/-- Matches the character class of capital ASCII letters used by the
replacement pattern in toSnakeCase (tauri-client.ts line 119). -/
def jsUpper (n : Nat) : Bool :=
  decide (65 ≤ n ∧ n ≤ 90)

/-- The global replacement pass of toSnakeCase: every capital ASCII letter
becomes an underscore (code 95) followed by its lowercase form (code plus
32); every other code unit is kept (tauri-client.ts line 119, first
replace). -/
def replaceUppers : List Nat → List Nat
  | [] => []
  | n :: rest => (if jsUpper n then [95, n + 32] else [n]) ++ replaceUppers rest

/-- The second replacement pass of toSnakeCase: strip one leading
underscore if present (tauri-client.ts line 119, second replace). -/
def stripLeadingUnderscore : List Nat → List Nat
  | [] => []
  | n :: rest => if n = 95 then rest else n :: rest

/-- toSnakeCase from tauri-client.ts lines 118-120: replace each capital
letter by an underscore and its lowercase form, then strip a single
leading underscore. -/
def toSnakeCase (s : List Nat) : List Nat :=
  stripLeadingUnderscore (replaceUppers s)

/-- The backend command name computed by the proxy handler for a method
name (tauri-client.ts line 84). -/
def tauriCommandName (prop : List Nat) : List Nat :=
  toSnakeCase prop

/-- The code units of a Lean string literal, for concrete instances. -/
def codesOf (s : String) : List Nat :=
  s.data.map (fun c => c.toNat)

/-- The createRecording input of the proxied client (tauri-client.ts lines
25-29): a recording buffer (null or a byte sequence), a duration, and an
optional fusion flag. The ArrayBuffer is a sequence of bytes. -/
structure CreateRecordingInput where
  recording : Option (List (Fin 256))
  duration : Int
  useFusion : Option Bool

/-- The argument object handed to the backend invoke call: either the
unwrapped createRecording payload with the buffer converted to a numeric
array, or the input passed through unchanged. -/
inductive InvokeArgs where
  | recordingArgs (recording : List Nat) (duration : Int) (useFusion : Option Bool)
  | passthrough (input : CreateRecordingInput)

/-- The numeric array built from the recording buffer by
Array.from(new Uint8Array(input.recording)) (tauri-client.ts line 91):
element i is byte i of the buffer, as a number. -/
def arrayFromUint8 (buf : List (Fin 256)) : List Nat :=
  buf.map (fun b => b.val)

/-- The createRecording branch of the proxy handler (tauri-client.ts lines
89-96): with a non-null recording buffer, the invoke payload carries the
buffer converted to a numeric array together with duration and useFusion
forwarded unchanged; otherwise the input is passed through. -/
def createRecordingInvokeArgs (input : CreateRecordingInput) : InvokeArgs :=
  match input.recording with
  | some buf => .recordingArgs (arrayFromUint8 buf) input.duration input.useFusion
  | none => .passthrough input

/-! ## Concrete fixtures

Small concrete tools, states and provider tables used by the closed
instances of the theorems below. -/

/-- A tool descriptor with the given name and an unconstrained schema. -/
def toolNamed (n : String) : ToolDescriptor :=
  ⟨n, "", Schema.sAny⟩

/-- A profile-switching handler: sets the active profile from a string
argument, fails otherwise. -/
def setProfile (args : Json) (st : AppState) : Except String (Json × AppState) :=
  match args with
  | .str pid => Except.ok (Json.bool true, { st with activeProfileId := pid })
  | _ => Except.error "invalid profile argument"

/-- A mutating local tool that switches the active profile. -/
def switchProfileTool : LocalTool :=
  ⟨"switch_profile", Schema.sAny, setProfile⟩

/-- A local tool whose handler always fails. -/
def failingTool : LocalTool :=
  ⟨"switch_profile", Schema.sObj [("profileId", FieldType.fStr)],
    fun _ _ => Except.error "profile store rejected the switch"⟩

/-- A handler that succeeds without touching the state. -/
def idleHandler : Json → AppState → Except String (Json × AppState) :=
  fun _ st => Except.ok (Json.null, st)

/-- A manager state with one ready provider named A and an empty
registry. -/
def managerA : ManagerState :=
  ⟨[("A", ⟨⟨"A", "npx", [], [], true⟩, ConnState.ready, none⟩)], []⟩

/-- A catalogue answer of three tools from every provider. -/
def resultsThree : String → ProviderResult :=
  fun _ => .tools [toolNamed "read_file", toolNamed "write_file", toolNamed "list_dir"]

/-- A manager state with one ready provider named A that already has one
discovered registry entry. -/
def managerT : ManagerState :=
  ⟨[("A", ⟨⟨"A", "npx", [], [], true⟩, ConnState.ready, none⟩)],
    [⟨"A", toolNamed "read_file", false⟩]⟩

/-- A catalogue query on which every provider times out. -/
def resultsSlow : String → ProviderResult :=
  fun _ => .timedOut

/-- A manager state with one ready provider p exposing one tool t. -/
def managerCall : ManagerState :=
  ⟨[("p", ⟨⟨"p", "cmd", [], [], true⟩, ConnState.ready, none⟩)],
    [⟨"p", toolNamed "t", false⟩]⟩

/-- A manager state with one degraded provider named d. -/
def managerDegraded : ManagerState :=
  ⟨[("d", ⟨⟨"d", "cmd", [], [], true⟩, ConnState.degraded, none⟩)], []⟩

/-- A local state fixture. -/
def localStateFx : LocalState :=
  ⟨"Code", some "main.rs", [("MCP", "Model Context Protocol")], ["hello world"]⟩

/-! ## Theorems -/

/-- The core decoder recovers every encoded typed message. -/
theorem decodeCore_encode (m : Message) : decodeCore (encode m) = some m := by
  cases m with
  | request id method params => cases id <;> cases params <;> rfl
  | notification method params => cases params <;> rfl
  | response id outcome =>
    rcases outcome with r | ⟨code, msg, d⟩ <;> cases id <;>
      first
      | rfl
      | (cases d <;> rfl)

/-- C1: for every valid (well-typed) request message, encoding never fails
(encode is a total function of the typed message) and decoding the encoded
wire form returns the same message. -/
theorem c1_encode_decode_roundtrip (m : Message) : decode (encode m) = Except.ok m := by
  unfold decode
  rw [decodeCore_encode]

/-- A field appended under an unrelated key does not change a field
lookup. -/
theorem lookupField_append_ne (kvs : List (String × Json)) (k : String) (v : Json)
    (key : String) (h : k ≠ key) :
    lookupField (kvs ++ [(k, v)]) key = lookupField kvs key := by
  induction kvs with
  | nil => simp [lookupField, h]
  | cons kv rest ih =>
    by_cases hh : kv.1 = key <;> simp [lookupField, hh, ih]

/-- C2: decoding is total — every input either decodes to a message or is
rejected with a malformed-message error carrying the offending fragment,
truncated to the fragment limit, and no other fault; a response-shaped
object with both a result and an error, or neither, is rejected as
malformed; a well-formed message with an unknown extra field is never
rejected. -/
theorem c2_decode_totality :
    (∀ j, (∃ m, decode j = Except.ok m) ∨
        (decode j = Except.error (DecodeError.malformedMessage (fragmentOf j)) ∧
          (fragmentOf j).length ≤ fragLimit)) ∧
    (∀ kvs n,
        lookupField kvs "jsonrpc" = some (Json.str "2.0") →
        lookupField kvs "method" = none →
        lookupField kvs "id" = some (Json.num n) →
        ((lookupField kvs "result").isSome ↔ (lookupField kvs "error").isSome) →
        decode (Json.obj kvs) =
          Except.error (DecodeError.malformedMessage (fragmentOf (Json.obj kvs)))) ∧
    (∀ m k v, k ∉ knownTopLevelFields →
        decode (addExtraField (encode m) k v) = Except.ok m) := by
  refine ⟨?_, ?_, ?_⟩
  · intro j
    unfold decode
    cases h : decodeCore j with
    | some m => exact Or.inl ⟨m, rfl⟩
    | none =>
      refine Or.inr ⟨rfl, ?_⟩
      simp only [fragmentOf, List.length_take]
      exact Nat.min_le_left _ _
  · intro kvs n h1 h2 h3 h4
    have hcore : decodeCore (Json.obj kvs) = none := by
      show decodeFields kvs = none
      unfold decodeFields
      rw [h1, h2, h3]
      cases hr : lookupField kvs "result" <;> cases he : lookupField kvs "error" <;>
        simp_all [decodeFrom, decodeId]
    simp [decode, hcore]
  · intro m k v hk
    simp only [knownTopLevelFields, List.mem_cons, List.not_mem_nil, or_false] at hk
    push_neg at hk
    obtain ⟨hk1, hk2, hk3, hk4, hk5, hk6⟩ := hk
    have hform : addExtraField (encode m) k v = Json.obj (encodeFields m ++ [(k, v)]) := rfl
    rw [hform]
    have hcore : decodeCore (Json.obj (encodeFields m ++ [(k, v)])) = some m := by
      show decodeFields (encodeFields m ++ [(k, v)]) = some m
      unfold decodeFields
      rw [lookupField_append_ne _ _ _ _ hk1, lookupField_append_ne _ _ _ _ hk3,
        lookupField_append_ne _ _ _ _ hk2, lookupField_append_ne _ _ _ _ hk4,
        lookupField_append_ne _ _ _ _ hk5, lookupField_append_ne _ _ _ _ hk6]
      exact decodeCore_encode m
    simp [decode, hcore]

/-- Closed instance of the C2 theorem: the response object with an id but
neither result nor error is rejected as malformed, and a notification with
an unknown extra field still decodes to itself. -/
theorem c2_decode_totality_witness :
    decode (Json.obj [("jsonrpc", Json.str "2.0"), ("id", Json.num 1)]) =
      Except.error (DecodeError.malformedMessage
        (fragmentOf (Json.obj [("jsonrpc", Json.str "2.0"), ("id", Json.num 1)]))) ∧
    decode (addExtraField (encode (Message.notification "ping" none)) "extra" (Json.bool true)) =
      Except.ok (Message.notification "ping" none) :=
  ⟨c2_decode_totality.2.1 [("jsonrpc", Json.str "2.0"), ("id", Json.num 1)] 1 rfl rfl rfl Iff.rfl,
   c2_decode_totality.2.2 (Message.notification "ping" none) "extra" (Json.bool true) (by decide)⟩

/-- The replacement pass leaves a string without capital letters
unchanged. -/
theorem replaceUppers_id (s : List Nat) (h : ∀ x ∈ s, jsUpper x = false) :
    replaceUppers s = s := by
  induction s with
  | nil => rfl
  | cons n rest ih =>
    have hn := h n (by simp)
    simp [replaceUppers, hn, ih (fun x hx => h x (by simp [hx]))]

/-- A capital letter shifted to lowercase is no longer a capital letter. -/
theorem jsUpper_add32 (n : Nat) (h : jsUpper n = true) : jsUpper (n + 32) = false := by
  simp [jsUpper] at *
  omega

/-- The output of the replacement pass contains no capital letter. -/
theorem replaceUppers_no_upper (s : List Nat) :
    ∀ x ∈ replaceUppers s, jsUpper x = false := by
  induction s with
  | nil => simp [replaceUppers]
  | cons n rest ih =>
    intro x hx
    cases hu : jsUpper n with
    | false =>
      simp [replaceUppers, hu] at hx
      rcases hx with rfl | hx
      · exact hu
      · exact ih x hx
    | true =>
      simp [replaceUppers, hu] at hx
      rcases hx with rfl | rfl | hx
      · decide
      · exact jsUpper_add32 n hu
      · exact ih x hx

/-- toSnakeCase is the identity on a string with no capital letter and no
leading underscore. -/
theorem toSnakeCase_id (s : List Nat) (h1 : ∀ x ∈ s, jsUpper x = false)
    (h2 : s.head? ≠ some 95) : toSnakeCase s = s := by
  unfold toSnakeCase
  rw [replaceUppers_id s h1]
  cases s with
  | nil => rfl
  | cons n rest =>
    have hn : n ≠ 95 := by
      intro e
      exact h2 (by simp [e])
    simp [stripLeadingUnderscore, hn]

/-- toSnakeCase on a string starting with a lowercase ASCII letter keeps
that letter in front and only rewrites the tail. -/
theorem toSnakeCase_cons_lower (c : Nat) (cs : List Nat) (hc : 97 ≤ c ∧ c ≤ 122) :
    toSnakeCase (c :: cs) = c :: replaceUppers cs := by
  have h1 : jsUpper c = false := by
    simp [jsUpper]
    omega
  have h2 : c ≠ 95 := by omega
  simp [toSnakeCase, replaceUppers, h1, stripLeadingUnderscore, h2]

/-- C9: the proxy hands every method name to the backend as
toSnakeCase of the name; toSnakeCase is the identity on any string with no
capital letter and no leading underscore; and on any method name beginning
with a lowercase ASCII letter (as every Router method name does),
toSnakeCase is idempotent. -/
theorem c9_command_name_snake_case (prop s : List Nat) (c : Nat)
    (hall : ∀ x ∈ s, jsUpper x = false) (hhead : s.head? ≠ some 95)
    (hp : prop.head? = some c) (hc : 97 ≤ c ∧ c ≤ 122) :
    tauriCommandName prop = toSnakeCase prop ∧
    toSnakeCase s = s ∧
    toSnakeCase (toSnakeCase prop) = toSnakeCase prop := by
  refine ⟨rfl, toSnakeCase_id s hall hhead, ?_⟩
  cases prop with
  | nil => simp at hp
  | cons a cs =>
    have ha : a = c := by simpa using hp
    subst ha
    rw [toSnakeCase_cons_lower a cs hc]
    apply toSnakeCase_id
    · intro x hx
      rcases List.mem_cons.mp hx with rfl | hx2
      · simp [jsUpper]
        omega
      · exact replaceUppers_no_upper cs x hx2
    · simp
      omega

/-- Closed instance of the C9 theorem on the createRecording method name of
the Router. -/
theorem c9_command_name_snake_case_witness :
    tauriCommandName (codesOf "createRecording") = toSnakeCase (codesOf "createRecording") ∧
    toSnakeCase (codesOf "create_recording") = codesOf "create_recording" ∧
    toSnakeCase (toSnakeCase (codesOf "createRecording")) =
      toSnakeCase (codesOf "createRecording") :=
  c9_command_name_snake_case (codesOf "createRecording") (codesOf "create_recording") 99
    (by decide) (by decide) (by decide) (by decide)

/-- C10: with a non-null recording buffer, the payload handed to the
backend carries the buffer as a numeric array of the same length whose
entries are exactly the buffer's bytes (each below 256), with duration and
useFusion forwarded unchanged. -/
theorem c10_createRecording_payload (input : CreateRecordingInput) (buf : List (Fin 256))
    (h : input.recording = some buf) :
    createRecordingInvokeArgs input =
      InvokeArgs.recordingArgs (arrayFromUint8 buf) input.duration input.useFusion ∧
    (arrayFromUint8 buf).length = buf.length ∧
    (∀ i : Nat, (arrayFromUint8 buf)[i]? = buf[i]?.map Fin.val) ∧
    (∀ x ∈ arrayFromUint8 buf, x < 256) := by
  refine ⟨by simp [createRecordingInvokeArgs, h], by simp [arrayFromUint8], ?_, ?_⟩
  · intro i
    simp [arrayFromUint8]
  · intro x hx
    simp [arrayFromUint8] at hx
    obtain ⟨b, _, rfl⟩ := hx
    exact b.isLt

/-- Closed instance of the C10 theorem on a three-byte recording. -/
theorem c10_createRecording_payload_witness :
    createRecordingInvokeArgs ⟨some [72, 255, 0], 5, some true⟩ =
      InvokeArgs.recordingArgs (arrayFromUint8 [72, 255, 0]) 5 (some true) ∧
    (arrayFromUint8 [72, 255, 0]).length = ([72, 255, 0] : List (Fin 256)).length ∧
    (arrayFromUint8 [72, 255, 0])[1]? = (([72, 255, 0] : List (Fin 256))[1]?).map Fin.val ∧
    (255 : Nat) < 256 :=
  ⟨(c10_createRecording_payload ⟨some [72, 255, 0], 5, some true⟩ [72, 255, 0] rfl).1,
   (c10_createRecording_payload ⟨some [72, 255, 0], 5, some true⟩ [72, 255, 0] rfl).2.1,
   (c10_createRecording_payload ⟨some [72, 255, 0], 5, some true⟩ [72, 255, 0] rfl).2.2.1 1,
   (c10_createRecording_payload ⟨some [72, 255, 0], 5, some true⟩ [72, 255, 0] rfl).2.2.2 255
     (by decide)⟩

/-- Replacing every handler commutes with the dispatch lookup: the found
tool is the original one with its handler replaced. -/
theorem find?_withHandlers (g : Json → AppState → Except String (Json × AppState))
    (tools : List LocalTool) (name : String) :
    (withHandlers g tools).find? (fun t => decide (t.name = name)) =
      (tools.find? (fun t => decide (t.name = name))).map (fun t => { t with handler := g }) := by
  induction tools with
  | nil => rfl
  | cons t rest ih =>
    by_cases h : t.name = name
    · simp [withHandlers, List.find?_cons, h]
    · simpa [withHandlers, List.find?_cons, h] using ih

/-- C4: dispatch of an unknown tool name always yields the tool-not-found
error; dispatch of a known tool with schema-invalid arguments always yields
the invalid-arguments error with the violated constraint, and its outcome
is independent of the tool handlers (the handler is never invoked); a
handler failure is returned as tool-execution-failed carrying the original
cause. -/
theorem c4_dispatch_errors :
    (∀ tools st name args,
        tools.find? (fun t => decide (t.name = name)) = none →
        dispatch tools st name args = Except.error McpError.toolNotFound) ∧
    (∀ tools st name args t g,
        tools.find? (fun t => decide (t.name = name)) = some t →
        validate t.schema args = false →
        dispatch tools st name args =
            Except.error (McpError.invalidArguments (violationOf t.schema args)) ∧
        dispatch (withHandlers g tools) st name args = dispatch tools st name args) ∧
    (∀ tools st name args t cause,
        tools.find? (fun t => decide (t.name = name)) = some t →
        validate t.schema args = true →
        t.handler args st = Except.error cause →
        dispatch tools st name args =
          Except.error (McpError.toolExecutionFailed cause)) := by
  refine ⟨?_, ?_, ?_⟩
  · intro tools st name args h
    simp [dispatch, h]
  · intro tools st name args t g hfind hval
    constructor
    · simp [dispatch, hfind, hval]
    · simp [dispatch, find?_withHandlers, hfind, hval]
  · intro tools st name args t cause hfind hval hfail
    simp [dispatch, hfind, hval, hfail]

/-- Closed instance of the C4 theorem: an unknown name, schema-invalid
arguments on a known tool (independent of handlers), and a failing
handler. -/
theorem c4_dispatch_errors_witness :
    dispatch [failingTool] ⟨[], "default", []⟩ "no_such_tool" Json.null =
      Except.error McpError.toolNotFound ∧
    dispatch [failingTool] ⟨[], "default", []⟩ "switch_profile" Json.null =
      Except.error (McpError.invalidArguments (violationOf failingTool.schema Json.null)) ∧
    dispatch (withHandlers idleHandler [failingTool]) ⟨[], "default", []⟩ "switch_profile"
        Json.null =
      dispatch [failingTool] ⟨[], "default", []⟩ "switch_profile" Json.null ∧
    dispatch [failingTool] ⟨[], "default", []⟩ "switch_profile"
        (Json.obj [("profileId", Json.str "work")]) =
      Except.error (McpError.toolExecutionFailed "profile store rejected the switch") :=
  ⟨c4_dispatch_errors.1 [failingTool] ⟨[], "default", []⟩ "no_such_tool" Json.null rfl,
   (c4_dispatch_errors.2.1 [failingTool] ⟨[], "default", []⟩ "switch_profile" Json.null
      failingTool idleHandler rfl rfl).1,
   (c4_dispatch_errors.2.1 [failingTool] ⟨[], "default", []⟩ "switch_profile" Json.null
      failingTool idleHandler rfl rfl).2,
   c4_dispatch_errors.2.2 [failingTool] ⟨[], "default", []⟩ "switch_profile"
      (Json.obj [("profileId", Json.str "work")]) failingTool
      "profile store rejected the switch" rfl rfl rfl⟩

/-- A fold of max over a list of bounded values is bounded. -/
theorem foldr_max_le (xs : List Nat) (b : Nat) (h : ∀ x ∈ xs, x ≤ b) :
    xs.foldr max 0 ≤ b := by
  induction xs with
  | nil => simp
  | cons x rest ih =>
    simp only [List.foldr_cons]
    exact max_le (h x (by simp)) (ih (fun y hy => h y (by simp [hy])))

/-- C6: a snapshot build always completes within the aggregation budget
regardless of the provider count; a provider that fails or never answers
contributes nothing to the snapshot; and every local-state field (active
application, active file, glossary, recent history) is contained in the
snapshot. -/
theorem c6_buildSnapshot_degrades :
    (∀ ls providers budget pull,
        (buildSnapshot ls providers budget pull).2 ≤ budget) ∧
    (∀ ls providers budget pull q, pull q = ProviderPull.failsOrNever →
        ∀ kv ∈ (buildSnapshot ls providers budget pull).1.providerContext, kv.1 ≠ q) ∧
    (∀ ls providers budget pull,
        (buildSnapshot ls providers budget pull).1.activeApplication = ls.activeApp ∧
        (buildSnapshot ls providers budget pull).1.activeFile = ls.activeFile ∧
        (buildSnapshot ls providers budget pull).1.glossaryTerms = ls.glossary ∧
        (buildSnapshot ls providers budget pull).1.recentHistory = ls.history) := by
  refine ⟨?_, ?_, ?_⟩
  · intro ls providers budget pull
    apply foldr_max_le
    intro x hx
    simp only [List.mem_map] at hx
    obtain ⟨p, _, rfl⟩ := hx
    cases pull p with
    | within t ctx => exact min_le_right _ _
    | failsOrNever => exact le_refl _
  · intro ls providers budget pull q hq kv hkv
    simp only [buildSnapshot, List.mem_filterMap] at hkv
    obtain ⟨p, _, hp⟩ := hkv
    intro hkvq
    cases hpull : pull p with
    | within t ctx =>
      rw [hpull] at hp
      by_cases ht : t ≤ budget
      · simp [ht] at hp
        have hp1 : p = kv.1 := by rw [← hp]
        rw [hp1, hkvq, hq] at hpull
        exact ProviderPull.noConfusion hpull
      · simp [ht] at hp
    | failsOrNever =>
      rw [hpull] at hp
      simp at hp
  · intro ls providers budget pull
    exact ⟨rfl, rfl, rfl, rfl⟩

/-- Closed instance of the C6 theorem: one provider that never answers is
omitted while the snapshot keeps the local fields and finishes within the
budget. -/
theorem c6_buildSnapshot_degrades_witness :
    (buildSnapshot localStateFx ["filesystem"] 200 (fun _ => ProviderPull.failsOrNever)).2 ≤
      200 ∧
    (∀ kv ∈ (buildSnapshot localStateFx ["filesystem"] 200
        (fun _ => ProviderPull.failsOrNever)).1.providerContext, kv.1 ≠ "filesystem") ∧
    (buildSnapshot localStateFx ["filesystem"] 200
        (fun _ => ProviderPull.failsOrNever)).1.activeApplication = localStateFx.activeApp :=
  ⟨c6_buildSnapshot_degrades.1 localStateFx ["filesystem"] 200 (fun _ => .failsOrNever),
   c6_buildSnapshot_degrades.2.1 localStateFx ["filesystem"] 200 (fun _ => .failsOrNever)
     "filesystem" rfl,
   (c6_buildSnapshot_degrades.2.2 localStateFx ["filesystem"] 200
     (fun _ => .failsOrNever)).1⟩

/-- Filtering a keyed table keeps its keys free of duplicates. -/
theorem nodup_keys_filter {α : Type} (l : List (String × α)) (p : String × α → Bool)
    (h : (l.map Prod.fst).Nodup) : ((l.filter p).map Prod.fst).Nodup :=
  ((l.filter_sublist ).map Prod.fst).nodup h

/-- After removing every entry under a key, no entry under that key is
left. -/
theorem filter_key_after_remove (l : List (String × Connection)) (n : String) :
    (l.filter (fun kc => decide (kc.1 ≠ n))).filter (fun kc => decide (kc.1 = n)) = [] := by
  induction l with
  | nil => rfl
  | cons kc rest ih =>
    by_cases h : kc.1 = n <;> simp [List.filter_cons, h, ih]

/-- C8: in every reachable manager state the connection table holds at most
one connection per provider name; connecting under an existing name
replaces the old connection (exactly the new connection is registered
under that name afterwards); and disconnecting a provider removes every
registry entry sourced from it. -/
theorem c8_one_connection_per_name :
    (∀ s, Reachable s → (s.connections.map Prod.fst).Nodup) ∧
    (∀ s cfg res,
        (connect s cfg res).connections.filter (fun kc => decide (kc.1 = cfg.name)) =
          [(cfg.name, mkConnection cfg res)]) ∧
    (∀ s name e, e ∈ (disconnect s name).registry → e.namespaceName ≠ name) := by
  refine ⟨?_, ?_, ?_⟩
  · intro s h
    induction h with
    | init registry => simp
    | connectStep s cfg res hs ih =>
      show ((( cfg.name, mkConnection cfg res) ::
        s.connections.filter (fun kc => decide (kc.1 ≠ cfg.name))).map Prod.fst).Nodup
      rw [List.map_cons, List.nodup_cons]
      constructor
      · intro hmem
        simp only [List.mem_map, List.mem_filter, decide_eq_true_eq] at hmem
        obtain ⟨kc, ⟨_, hne⟩, heq⟩ := hmem
        exact hne heq
      · exact nodup_keys_filter _ _ ih
    | disconnectStep s name hs ih => exact nodup_keys_filter _ _ ih
    | listToolsStep s results hs ih => exact ih
  · intro s cfg res
    show ((( cfg.name, mkConnection cfg res) ::
        s.connections.filter (fun kc => decide (kc.1 ≠ cfg.name))).filter
        (fun kc => decide (kc.1 = cfg.name))) = _
    rw [List.filter_cons]
    simp [filter_key_after_remove]
  · intro s name e he
    simp only [disconnect, List.mem_filter, decide_eq_true_eq] at he
    exact he.2

/-- Closed instance of the C8 theorem: the empty reachable state has no
duplicate names, reconnecting provider A replaces its connection, and
disconnecting B leaves the entry sourced from A untouched while no entry
sourced from B survives. -/
theorem c8_one_connection_per_name_witness :
    ((ManagerState.mk [] []).connections.map Prod.fst).Nodup ∧
    (connect managerA ⟨"A", "npx", [], [], true⟩ SpawnResult.ok).connections.filter
        (fun kc => decide (kc.1 = "A")) =
      [("A", mkConnection ⟨"A", "npx", [], [], true⟩ SpawnResult.ok)] ∧
    (RegistryEntry.mk "A" (toolNamed "read_file") false).namespaceName ≠ "B" :=
  ⟨c8_one_connection_per_name.1 ⟨[], []⟩ (Reachable.init []),
   c8_one_connection_per_name.2.1 managerA ⟨"A", "npx", [], [], true⟩ SpawnResult.ok,
   c8_one_connection_per_name.2.2 managerT "B" ⟨"A", toolNamed "read_file", false⟩
     (by simp [disconnect, managerT, toolNamed])⟩

/-- The registry produced by a discovery pass, written out. -/
theorem listTools_registry_eq (s : ManagerState) (results : String → ProviderResult) :
    (listToolsUpdate s results).1.registry =
      ((s.registry.filter (fun e =>
          !((readyNames s).filter (fun p => succeededB (results p))).contains
            e.namespaceName)).map
        (fun e =>
          if ((readyNames s).filter (fun p => !succeededB (results p))).contains
              e.namespaceName
          then { e with stale := true } else e)) ++
      ((readyNames s).filter (fun p => succeededB (results p))).flatMap
        (fun p => (toolsOf (results p)).map (fun t => RegistryEntry.mk p t false)) := rfl

/-- The warnings surfaced by a discovery pass are the timed-out ready
providers. -/
theorem listTools_warnings_eq (s : ManagerState) (results : String → ProviderResult) :
    (listToolsUpdate s results).2 =
      (readyNames s).filter (fun p => !succeededB (results p)) := rfl

/-- The length of the freshly discovered entries is the sum of the
per-provider catalogue sizes. -/
theorem length_flatMap_blocks (ps : List String) (f : String → List ToolDescriptor) :
    (ps.flatMap (fun q => (f q).map (fun t => RegistryEntry.mk q t false))).length =
      (ps.map (fun p => (f p).length)).sum := by
  induction ps with
  | nil => rfl
  | cons r rest ih => simp [ih]

/-- Fresh entries carry no namespace outside their source list. -/
theorem filter_flatMap_not_mem (ps : List String) (f : String → List ToolDescriptor)
    (p : String) (hp : p ∉ ps) :
    (ps.flatMap (fun q => (f q).map (fun t => RegistryEntry.mk q t false))).filter
      (fun e => decide (e.namespaceName = p)) = [] := by
  induction ps with
  | nil => rfl
  | cons r rest ih =>
    have hr : ¬(r = p) := fun h => hp (by simp [h])
    have hrest : p ∉ rest := fun h => hp (by simp [h])
    simp only [List.flatMap_cons, List.filter_append, ih hrest, List.append_nil]
    rw [List.filter_map]
    simp [Function.comp_def, hr]

/-- Among the fresh entries of a duplicate-free provider list, those under
one member's namespace are exactly that provider's block. -/
theorem filter_flatMap_blocks (ps : List String) (f : String → List ToolDescriptor)
    (p : String) (hnd : ps.Nodup) (hp : p ∈ ps) :
    (ps.flatMap (fun q => (f q).map (fun t => RegistryEntry.mk q t false))).filter
      (fun e => decide (e.namespaceName = p)) =
      (f p).map (fun t => RegistryEntry.mk p t false) := by
  induction ps with
  | nil => simp at hp
  | cons r rest ih =>
    obtain ⟨hrn, hrest⟩ := List.nodup_cons.mp hnd
    simp only [List.flatMap_cons, List.filter_append]
    rcases List.mem_cons.mp hp with rfl | hp2
    · have hblock : ((f p).map (fun t => RegistryEntry.mk p t false)).filter
          (fun e => decide (e.namespaceName = p)) =
          (f p).map (fun t => RegistryEntry.mk p t false) := by
        rw [List.filter_map]
        simp [Function.comp_def]
      rw [hblock, filter_flatMap_not_mem rest f p hrn, List.append_nil]
    · have hr : ¬(r = p) := fun h => hrn (h ▸ hp2)
      have hblock : ((f r).map (fun t => RegistryEntry.mk r t false)).filter
          (fun e => decide (e.namespaceName = p)) = [] := by
        rw [List.filter_map]
        simp [Function.comp_def, hr]
      rw [hblock, List.nil_append, ih hrest hp2]

/-- When every ready provider answers, the new registry is the kept old
entries followed by every provider's fresh block. -/
theorem listTools_all_ok_registry (s : ManagerState) (results : String → ProviderResult)
    (hall : ∀ p ∈ readyNames s, succeededB (results p) = true) :
    (listToolsUpdate s results).1.registry =
      s.registry.filter (fun e => !(readyNames s).contains e.namespaceName) ++
        (readyNames s).flatMap
          (fun p => (toolsOf (results p)).map (fun t => RegistryEntry.mk p t false)) := by
  have hok : (readyNames s).filter (fun p => succeededB (results p)) = readyNames s :=
    List.filter_eq_self.mpr hall
  have hslow : (readyNames s).filter (fun p => !succeededB (results p)) = [] := by
    rw [List.filter_eq_nil_iff]
    intro a ha
    simp [hall a ha]
  rw [listTools_registry_eq, hok, hslow]
  simp

/-- C5: when every ready provider answers its catalogue query, the
discovery pass leaves the registry with exactly the sum of the
per-provider tool counts under ready namespaces, and (names being unique)
each ready provider's entries are exactly its returned tools under its own
namespace; a ready provider that times out instead is surfaced as a
warning while its previously discovered entries are kept, tagged stale
rather than removed; and a provider whose process fails to start is
recorded as a closed connection with the provider-unavailable failure. -/
theorem c5_listTools_aggregation :
    (∀ s results, (∀ p ∈ readyNames s, succeededB (results p) = true) →
        ((listToolsUpdate s results).1.registry.filter
            (fun e => (readyNames s).contains e.namespaceName)).length =
          ((readyNames s).map (fun p => (toolsOf (results p)).length)).sum ∧
        ((readyNames s).Nodup → ∀ p ∈ readyNames s,
            registryFor (listToolsUpdate s results).1.registry p =
              (toolsOf (results p)).map (fun t => RegistryEntry.mk p t false))) ∧
    (∀ s results q, q ∈ readyNames s → results q = ProviderResult.timedOut →
        q ∈ (listToolsUpdate s results).2 ∧
        registryFor (listToolsUpdate s results).1.registry q =
          (registryFor s.registry q).map (fun e => { e with stale := true })) ∧
    (∀ s cfg, lookupConn (connect s cfg SpawnResult.spawnFailed) cfg.name =
        some ⟨cfg, ConnState.closed, some McpError.providerUnavailable⟩) := by
  refine ⟨?_, ?_, ?_⟩
  · intro s results hall
    constructor
    · rw [listTools_all_ok_registry s results hall, List.filter_append]
      have hkept : (s.registry.filter
          (fun e => !(readyNames s).contains e.namespaceName)).filter
          (fun e => (readyNames s).contains e.namespaceName) = [] := by
        rw [List.filter_eq_nil_iff]
        intro e he
        simp only [List.mem_filter, Bool.not_eq_true'] at he
        have h2 := he.2
        simp at h2
        simp [h2]
      have hfresh : ((readyNames s).flatMap
          (fun p => (toolsOf (results p)).map (fun t => RegistryEntry.mk p t false))).filter
          (fun e => (readyNames s).contains e.namespaceName) =
          (readyNames s).flatMap
            (fun p => (toolsOf (results p)).map (fun t => RegistryEntry.mk p t false)) := by
        rw [List.filter_eq_self]
        intro e he
        simp only [List.mem_flatMap, List.mem_map] at he
        obtain ⟨p, hp, t, ht, rfl⟩ := he
        simp [hp]
      rw [hkept, hfresh, List.nil_append, length_flatMap_blocks]
    · intro hnd p hp
      rw [listTools_all_ok_registry s results hall]
      unfold registryFor
      rw [List.filter_append]
      have h1 : (s.registry.filter
          (fun e => !(readyNames s).contains e.namespaceName)).filter
          (fun e => decide (e.namespaceName = p)) = [] := by
        rw [List.filter_eq_nil_iff]
        intro e he hdec
        simp only [List.mem_filter, Bool.not_eq_true'] at he
        simp only [decide_eq_true_eq] at hdec
        obtain ⟨hei, hec⟩ := he
        rw [hdec] at hec
        simp [hp] at hec
      rw [h1, List.nil_append, filter_flatMap_blocks (readyNames s) _ p hnd hp]
  · intro s results q hq hres
    have hqslow : q ∈ (readyNames s).filter (fun p => !succeededB (results p)) := by
      rw [List.mem_filter]
      exact ⟨hq, by simp [hres, succeededB]⟩
    have hqok : q ∉ (readyNames s).filter (fun p => succeededB (results p)) := by
      rw [List.mem_filter]
      rintro ⟨_, hs⟩
      rw [hres] at hs
      simp [succeededB] at hs
    constructor
    · rw [listTools_warnings_eq]
      exact hqslow
    · rw [listTools_registry_eq]
      unfold registryFor
      rw [List.filter_append,
        filter_flatMap_not_mem ((readyNames s).filter (fun p => succeededB (results p)))
          _ q hqok, List.append_nil, List.filter_map]
      have hpred : ∀ e : RegistryEntry,
          (((fun e => decide (e.namespaceName = q)) ∘
            (fun e =>
              if ((readyNames s).filter (fun p => !succeededB (results p))).contains
                  e.namespaceName
              then { e with stale := true } else e)) e) =
            decide (e.namespaceName = q) := by
        intro e
        simp only [Function.comp_def]
        split <;> rfl
      rw [List.filter_congr (fun e _ => hpred e), List.filter_filter]
      have hpred2 : ∀ e : RegistryEntry,
          (decide (e.namespaceName = q) &&
            !((readyNames s).filter (fun p => succeededB (results p))).contains
              e.namespaceName) = decide (e.namespaceName = q) := by
        intro e
        by_cases hns : e.namespaceName = q
        · rw [hns]
          simp [hqok]
        · simp [hns]
      rw [List.filter_congr (fun e _ => hpred2 e)]
      apply List.map_congr_left
      intro e he
      simp only [List.mem_filter, decide_eq_true_eq] at he
      rw [he.2]
      simp [hqslow]
  · intro s cfg
    simp [lookupConn, connect, disconnect, mkConnection, List.find?_cons]

/-- Closed instance of the C5 theorem: provider A returns three tools and
they are all registered under A's namespace; a timed-out discovery keeps
A's old entry stale and warns; a provider B that fails to start is
recorded as closed with the provider-unavailable failure. -/
theorem c5_listTools_aggregation_witness :
    ((listToolsUpdate managerA resultsThree).1.registry.filter
        (fun e => (readyNames managerA).contains e.namespaceName)).length =
      ((readyNames managerA).map (fun p => (toolsOf (resultsThree p)).length)).sum ∧
    registryFor (listToolsUpdate managerA resultsThree).1.registry "A" =
      (toolsOf (resultsThree "A")).map (fun t => RegistryEntry.mk "A" t false) ∧
    "A" ∈ (listToolsUpdate managerT resultsSlow).2 ∧
    registryFor (listToolsUpdate managerT resultsSlow).1.registry "A" =
      (registryFor managerT.registry "A").map (fun e => { e with stale := true }) ∧
    lookupConn (connect managerA ⟨"B", "bad", [], [], true⟩ SpawnResult.spawnFailed) "B" =
      some ⟨⟨"B", "bad", [], [], true⟩, ConnState.closed, some McpError.providerUnavailable⟩ :=
  ⟨(c5_listTools_aggregation.1 managerA resultsThree (by decide)).1,
   (c5_listTools_aggregation.1 managerA resultsThree (by decide)).2 (by decide) "A" (by decide),
   (c5_listTools_aggregation.2.1 managerT resultsSlow "A" (by decide) rfl).1,
   (c5_listTools_aggregation.2.1 managerT resultsSlow "A" (by decide) rfl).2,
   c5_listTools_aggregation.2.2 managerA ⟨"B", "bad", [], [], true⟩⟩

/-- C3: a missing provider fails fast with provider-unavailable and zero
elapsed time; an unready connection does the same; and a call whose
provider never responds returns call-timeout with the full timeout
elapsed (at or after the configured timeout), leaves no pending entry
under its request id, leaves the connection table untouched, and does not
block a subsequent call, which succeeds as soon as the provider answers
it within the timeout. -/
theorem c3_callTool_timeout :
    (∀ s pending timeout reqId pn tn args behavior,
        lookupConn s pn = none →
        (callTool s pending timeout reqId pn tn args behavior).result =
            Except.error McpError.providerUnavailable ∧
        (callTool s pending timeout reqId pn tn args behavior).elapsed = 0) ∧
    (∀ s pending timeout reqId pn tn args behavior conn,
        lookupConn s pn = some conn → conn.state ≠ ConnState.ready →
        (callTool s pending timeout reqId pn tn args behavior).result =
            Except.error McpError.providerUnavailable ∧
        (callTool s pending timeout reqId pn tn args behavior).elapsed = 0) ∧
    (∀ s pending timeout reqId pn tn args conn tool,
        lookupConn s pn = some conn → conn.state = ConnState.ready →
        findRemoteTool s pn tn = some tool →
        validate tool.inputSchema args = true →
        (callTool s pending timeout reqId pn tn args ProviderBehavior.neverResponds).result =
            Except.error McpError.callTimeout ∧
        timeout ≤
          (callTool s pending timeout reqId pn tn args ProviderBehavior.neverResponds).elapsed ∧
        (∀ pc ∈ (callTool s pending timeout reqId pn tn args
            ProviderBehavior.neverResponds).pendingAfter, pc.id ≠ reqId) ∧
        (callTool s pending timeout reqId pn tn args
            ProviderBehavior.neverResponds).connectionsAfter = s.connections ∧
        (∀ reqId2 t2 resp2, t2 ≤ timeout →
            (callTool s (callTool s pending timeout reqId pn tn args
                ProviderBehavior.neverResponds).pendingAfter timeout reqId2 pn tn args
              (ProviderBehavior.respondsAt t2 resp2)).result = respToResult resp2)) := by
  refine ⟨?_, ?_, ?_⟩
  · intro s pending timeout reqId pn tn args behavior h
    simp [callTool, h]
  · intro s pending timeout reqId pn tn args behavior conn h hstate
    simp [callTool, h, hstate]
  · intro s pending timeout reqId pn tn args conn tool hconn hstate htool hval
    refine ⟨?_, ?_, ?_, ?_, ?_⟩
    · simp [callTool, hconn, hstate, htool, hval]
    · simp [callTool, hconn, hstate, htool, hval]
    · intro pc hpc
      simp only [callTool, hconn, hstate, htool, hval] at hpc
      simp only [if_true, reduceIte, removePending, List.mem_filter, decide_eq_true_eq] at hpc
      exact hpc.2
    · simp [callTool, hconn, hstate, htool, hval]
    · intro reqId2 t2 resp2 ht2
      simp [callTool, hconn, hstate, htool, hval, ht2]

/-- Closed instance of the C3 theorem: a missing provider and a degraded
provider fail fast; a never-responding provider times out after the full
budget, frees the correlation slot of request 1 while keeping unrelated
pending entry 7, keeps the connection, and a second call with request id 2
answered immediately succeeds. -/
theorem c3_callTool_timeout_witness :
    (callTool managerCall [] 50 1 "ghost" "t" Json.null
        ProviderBehavior.neverResponds).result =
      Except.error McpError.providerUnavailable ∧
    (callTool managerDegraded [] 50 1 "d" "t" Json.null
        ProviderBehavior.neverResponds).result =
      Except.error McpError.providerUnavailable ∧
    (callTool managerCall [⟨7, 9⟩] 50 1 "p" "t" Json.null
        ProviderBehavior.neverResponds).result = Except.error McpError.callTimeout ∧
    50 ≤ (callTool managerCall [⟨7, 9⟩] 50 1 "p" "t" Json.null
        ProviderBehavior.neverResponds).elapsed ∧
    (⟨7, 9⟩ : PendingCall).id ≠ 1 ∧
    (callTool managerCall [⟨7, 9⟩] 50 1 "p" "t" Json.null
        ProviderBehavior.neverResponds).connectionsAfter = managerCall.connections ∧
    (callTool managerCall (callTool managerCall [⟨7, 9⟩] 50 1 "p" "t" Json.null
        ProviderBehavior.neverResponds).pendingAfter 50 2 "p" "t" Json.null
      (ProviderBehavior.respondsAt 0 (Sum.inl (Json.str "ok")))).result =
      respToResult (Sum.inl (Json.str "ok")) :=
  ⟨(c3_callTool_timeout.1 managerCall [] 50 1 "ghost" "t" Json.null
      ProviderBehavior.neverResponds rfl).1,
   (c3_callTool_timeout.2.1 managerDegraded [] 50 1 "d" "t" Json.null
      ProviderBehavior.neverResponds ⟨⟨"d", "cmd", [], [], true⟩, ConnState.degraded, none⟩
      rfl (by decide)).1,
   (c3_callTool_timeout.2.2 managerCall [⟨7, 9⟩] 50 1 "p" "t" Json.null
      ⟨⟨"p", "cmd", [], [], true⟩, ConnState.ready, none⟩ (toolNamed "t")
      rfl rfl rfl rfl).1,
   (c3_callTool_timeout.2.2 managerCall [⟨7, 9⟩] 50 1 "p" "t" Json.null
      ⟨⟨"p", "cmd", [], [], true⟩, ConnState.ready, none⟩ (toolNamed "t")
      rfl rfl rfl rfl).2.1,
   (c3_callTool_timeout.2.2 managerCall [⟨7, 9⟩] 50 1 "p" "t" Json.null
      ⟨⟨"p", "cmd", [], [], true⟩, ConnState.ready, none⟩ (toolNamed "t")
      rfl rfl rfl rfl).2.2.1 ⟨7, 9⟩ (by decide),
   (c3_callTool_timeout.2.2 managerCall [⟨7, 9⟩] 50 1 "p" "t" Json.null
      ⟨⟨"p", "cmd", [], [], true⟩, ConnState.ready, none⟩ (toolNamed "t")
      rfl rfl rfl rfl).2.2.2.1,
   (c3_callTool_timeout.2.2 managerCall [⟨7, 9⟩] 50 1 "p" "t" Json.null
      ⟨⟨"p", "cmd", [], [], true⟩, ConnState.ready, none⟩ (toolNamed "t")
      rfl rfl rfl rfl).2.2.2.2 2 0 (Sum.inl (Json.str "ok")) (by omega)⟩

/-- The initial configuration satisfies the execution invariant. -/
theorem initExec_inv {σ : Type} (f0 f1 : σ → σ) (s0 : σ) :
    ExecInv f0 f1 s0 (initExec s0) := by
  refine ⟨?_, ?_, ?_, ?_, ?_, ?_, ?_⟩ <;>
    simp [initExec, holdsLock, appliedWrite]

theorem execInv_swap {σ : Type} {f0 f1 : σ → σ} {s0 : σ} {e : Exec σ}
    (h : ExecInv f0 f1 s0 e) : ExecInv f1 f0 s0 (swapExec e) := by
  obtain ⟨hx, h00, h10, h01, h11, hr0, hr1⟩ := h
  exact ⟨fun hh => hx ⟨hh.2, hh.1⟩, fun a b => h00 b a, fun a b => h01 b a,
    fun a b => h10 b a, fun a b => (h11 b a).symm, hr1, hr0⟩

theorem step_false_inv {σ : Type} (f0 f1 : σ → σ) (s0 : σ) (e : Exec σ)
    (h : ExecInv f0 f1 s0 e) : ExecInv f0 f1 s0 (step f0 f1 e false) := by
  obtain ⟨hx, h00, h10, h01, h11, hr0, hr1⟩ := h
  rcases e with ⟨p0, p1, app⟩
  have hstep : step f0 f1 ⟨p0, p1, app⟩ false =
      ⟨(stepCall f0 p0 p1 app).1, p1, (stepCall f0 p0 p1 app).2⟩ := rfl
  rw [hstep]
  cases p0 with
  | idle =>
    cases hl : holdsLock p1 with
    | true =>
      have h1 : stepCall f0 Phase.idle p1 app = (Phase.idle, app) := by
        simp [stepCall, hl]
      rw [h1]
      exact ⟨hx, h00, h10, h01, h11, hr0, hr1⟩
    | false =>
      have h1 : stepCall f0 Phase.idle p1 app = (Phase.locked, app) := by
        simp [stepCall, hl]
      rw [h1]
      refine ⟨?_, h00, ?_, h01, ?_, ?_, hr1⟩
      · intro hh
        rw [show (Exec.mk Phase.locked p1 app).p1 = p1 from rfl, hl] at hh
        exact Bool.false_ne_true hh.2
      · intro ha
        exact absurd ha (by simp [stepCall, appliedWrite])
      · intro ha
        exact absurd ha (by simp [stepCall, appliedWrite])
      · intro saved hsv
        exact Phase.noConfusion hsv
  | locked =>
    refine ⟨?_, h00, ?_, h01, ?_, ?_, hr1⟩
    · intro hh
      exact hx ⟨rfl, hh.2⟩
    · intro ha
      exact absurd ha (by simp [stepCall, appliedWrite])
    · intro ha
      exact absurd ha (by simp [stepCall, appliedWrite])
    · intro saved hsv
      injection hsv with hv
      exact hv.symm
  | readDone saved =>
    have hsv : saved = app := hr0 saved rfl
    subst hsv
    have hnl : holdsLock p1 = false := by
      cases hlp : holdsLock p1
      · rfl
      · exact absurd ⟨rfl, hlp⟩ hx
    cases p1 with
    | idle =>
      have happ : saved = s0 := h00 rfl rfl
      refine ⟨?_, ?_, ?_, ?_, ?_, ?_, ?_⟩
      · intro hh
        exact Bool.false_ne_true hh.2
      · intro ha
        exact absurd ha (by simp [stepCall, appliedWrite])
      · intro _ _
        show f0 saved = f0 s0
        rw [happ]
      · intro ha
        exact absurd ha (by simp [stepCall, appliedWrite])
      · intro _ hb
        exact absurd hb (by simp [stepCall, appliedWrite])
      · intro sv hsv
        exact Phase.noConfusion hsv
      · intro sv hsv
        exact Phase.noConfusion hsv
    | done =>
      have happ : saved = f1 s0 := h01 rfl rfl
      refine ⟨?_, ?_, ?_, ?_, ?_, ?_, ?_⟩
      · intro hh
        exact Bool.false_ne_true hh.2
      · intro _ hb
        exact absurd hb (by simp [stepCall, appliedWrite])
      · intro _ hb
        exact absurd hb (by simp [stepCall, appliedWrite])
      · intro ha
        exact absurd ha (by simp [stepCall, appliedWrite])
      · intro _ _
        exact Or.inr (by show f0 saved = f0 (f1 s0); rw [happ])
      · intro sv hsv
        exact Phase.noConfusion hsv
      · intro sv hsv
        exact Phase.noConfusion hsv
    | locked => exact absurd hnl (by simp [stepCall, holdsLock])
    | readDone sv2 => exact absurd hnl (by simp [stepCall, holdsLock])
    | written => exact absurd hnl (by simp [stepCall, holdsLock])
  | written =>
    refine ⟨?_, ?_, h10, ?_, h11, ?_, hr1⟩
    · intro hh
      exact absurd hh.1 (by simp [stepCall, holdsLock])
    · intro ha
      exact absurd ha (by simp [stepCall, appliedWrite])
    · intro ha
      exact absurd ha (by simp [stepCall, appliedWrite])
    · intro sv hsv
      exact Phase.noConfusion hsv
  | done => exact ⟨hx, h00, h10, h01, h11, hr0, hr1⟩

theorem step_preserves_inv {σ : Type} (f0 f1 : σ → σ) (s0 : σ) (e : Exec σ) (w : Bool)
    (h : ExecInv f0 f1 s0 e) : ExecInv f0 f1 s0 (step f0 f1 e w) := by
  cases w with
  | false => exact step_false_inv f0 f1 s0 e h
  | true =>
    have h2 := execInv_swap (step_false_inv f1 f0 s0 (swapExec e) (execInv_swap h))
    exact h2

/-- A whole schedule preserves the execution invariant. -/
theorem run_preserves_inv {σ : Type} (f0 f1 : σ → σ) (s0 : σ) (sched : List Bool)
    (e : Exec σ) (h : ExecInv f0 f1 s0 e) : ExecInv f0 f1 s0 (run f0 f1 sched e) := by
  induction sched generalizing e with
  | nil => exact h
  | cons w rest ih => exact ih _ (step_preserves_inv f0 f1 s0 e w h)

/-- C7: two mutating calls to the same tool, interleaved by an arbitrary
schedule under the per-tool serialization lock, never mix their effects —
once both calls have completed, the application state is the sequential
composition of the two calls' state effects in one order or the other. -/
theorem c7_mutating_calls_serialized (t : LocalTool) (a0 a1 : Json) (s0 : AppState)
    (sched : List Bool)
    (h0 : (run (handlerEffect t a0) (handlerEffect t a1) sched (initExec s0)).p0 =
        Phase.done)
    (h1 : (run (handlerEffect t a0) (handlerEffect t a1) sched (initExec s0)).p1 =
        Phase.done) :
    (run (handlerEffect t a0) (handlerEffect t a1) sched (initExec s0)).app =
        handlerEffect t a1 (handlerEffect t a0 s0) ∨
    (run (handlerEffect t a0) (handlerEffect t a1) sched (initExec s0)).app =
        handlerEffect t a0 (handlerEffect t a1 s0) := by
  have hinv := run_preserves_inv (handlerEffect t a0) (handlerEffect t a1) s0 sched
    (initExec s0) (initExec_inv _ _ _)
  obtain ⟨-, -, -, -, h11, -, -⟩ := hinv
  exact h11 (by rw [h0]; rfl) (by rw [h1]; rfl)

/-- Closed instance of the C7 theorem: two profile switches under the
fully sequential schedule end in a sequential composition of the two. -/
theorem c7_mutating_calls_serialized_witness :
    (run (handlerEffect switchProfileTool (Json.str "work"))
        (handlerEffect switchProfileTool (Json.str "personal"))
        [false, false, false, false, true, true, true, true]
        (initExec ⟨[], "default", []⟩)).app =
      handlerEffect switchProfileTool (Json.str "personal")
        (handlerEffect switchProfileTool (Json.str "work") ⟨[], "default", []⟩) ∨
    (run (handlerEffect switchProfileTool (Json.str "work"))
        (handlerEffect switchProfileTool (Json.str "personal"))
        [false, false, false, false, true, true, true, true]
        (initExec ⟨[], "default", []⟩)).app =
      handlerEffect switchProfileTool (Json.str "work")
        (handlerEffect switchProfileTool (Json.str "personal") ⟨[], "default", []⟩) :=
  c7_mutating_calls_serialized switchProfileTool (Json.str "work") (Json.str "personal")
    ⟨[], "default", []⟩ [false, false, false, false, true, true, true, true] rfl rfl

end Whispo


